import Mathlib

set_option linter.unusedVariables false

/-!
# Verification of the IPFS pubsub console (`src/index.js`)

Shallow embedding of the single-file Node.js program: an interactive
console driving an IPFS node's pubsub interface.  Pure fragments
(port generation, repo-path construction, UTF-8 text/byte conversion,
command parsing) become Lean functions; the effectful console is
modelled as a function from an oracle describing the underlying node's
responses to the list of externally visible effects (console lines,
node calls, process exit); the two racy shutdown/line-event fragments
are modelled as block-interleaving machines where a block is the code
run between two `await` suspension points.
-/

/-! ## Port allocator (`getRandomPort`, src/index.js lines 7-9)

`Math.random()` is modelled as a rational `r` with `0 ≤ r < 1`;
`Math.floor` is `Int.floor`.  The JS source computes
`Math.floor(Math.random() * (max - min) + min)`. -/

def getRandomPort (min max : ℤ) (r : ℚ) : ℤ :=
  ⌊r * ((max : ℚ) - (min : ℚ)) + (min : ℚ)⌋

/-- The four port draws of `main` (src/index.js lines 13-16), one random
sample per category. -/
def swarmPort (r : ℚ) : ℤ := getRandomPort 4002 4999 r

def wsPort (r : ℚ) : ℤ := getRandomPort 5000 5999 r

def apiPort (r : ℚ) : ℤ := getRandomPort 6000 6999 r

def gatewayPort (r : ℚ) : ℤ := getRandomPort 7000 7999 r

/-- Repo path construction (src/index.js line 19):
`const repoPath = `./ipfs-repo-${swarmPort}``.  The other three ports are
in scope in `main` but unused by this line; they appear as arguments so
that independence can be stated. -/
def repoPath (swarm ws api gateway : ℤ) : String :=
  "./ipfs-repo-" ++ toString swarm

/-! ## UTF-8 text/byte conversion

The source converts between JS strings and `Uint8Array`s with
`uint8arrays`' `fromString`/`toString` (src/index.js lines 2-3), which
for the default `utf8` encoding are `TextEncoder.encode` and
`TextDecoder.decode` (non-fatal).  Bytes are `Nat`s `< 256`, code
points are `Nat`s.  `utf8EncodeChar` is standard UTF-8 encoding of a
Unicode scalar value; `utf8Decode` is the WHATWG UTF-8 decoder, which
never fails: each malformed sequence is replaced by U+FFFD and
decoding continues (this is why the subscription callback cannot throw
on a malformed payload). -/

/-- Standard UTF-8 encoding of one Unicode scalar value. -/
def utf8EncodeChar (c : Nat) : List Nat :=
  if c < 0x80 then [c]
  else if c < 0x800 then [0xC0 + c / 64, 0x80 + c % 64]
  else if c < 0x10000 then
    [0xE0 + c / 4096, 0x80 + (c / 64) % 64, 0x80 + c % 64]
  else
    [0xF0 + c / 262144, 0x80 + (c / 4096) % 64, 0x80 + (c / 64) % 64,
     0x80 + c % 64]

/-- UTF-8 encoding of a sequence of scalar values
(model of `uint8arrays/from-string` on the code-point level). -/
def utf8Encode (l : List Nat) : List Nat :=
  (l.map utf8EncodeChar).flatten

/-- Decoder state between bytes: `none` when no multi-byte sequence is
pending, otherwise `(cp, needed, lo, hi)` — the code point accumulated
so far, how many continuation bytes are still needed, and the window
`[lo, hi]` the next byte must fall in (the WHATWG "UTF-8 lower/upper
boundary" values). -/
def Pend : Type := Nat × Nat × Nat × Nat

/-- One step of the WHATWG UTF-8 decoder on a leading byte: returns
the emitted code points and the new pending state.  The second-byte
window depends on the leading byte (`E0 → A0..BF`, `ED → 80..9F`,
`F0 → 90..BF`, `F4 → 80..8F`), which rejects overlong forms,
surrogates and code points above `0x10FFFF`; bytes `80..C1` and
`F5..FF` are invalid leads and emit U+FFFD. -/
def utf8StepLead (b : Nat) : List Nat × Option Pend :=
  if b ≤ 0x7F then ([b], none)
  else if 0xC2 ≤ b ∧ b ≤ 0xDF then ([], some (b - 0xC0, 1, 0x80, 0xBF))
  else if 0xE0 ≤ b ∧ b ≤ 0xEF then
    ([], some (b - 0xE0, 2, if b = 0xE0 then 0xA0 else 0x80,
               if b = 0xED then 0x9F else 0xBF))
  else if 0xF0 ≤ b ∧ b ≤ 0xF4 then
    ([], some (b - 0xF0, 3, if b = 0xF0 then 0x90 else 0x80,
               if b = 0xF4 then 0x8F else 0xBF))
  else ([0xFFFD], none)

/-- One step of the WHATWG UTF-8 decoder on a byte, given the pending
state.  A continuation byte outside its window emits U+FFFD and the
byte is reprocessed as a leading byte, per the WHATWG algorithm. -/
def utf8Step (st : Option Pend) (b : Nat) : List Nat × Option Pend :=
  match st with
  | none => utf8StepLead b
  | some (cp, needed, lo, hi) =>
    if lo ≤ b ∧ b ≤ hi then
      if needed = 1 then ([cp * 64 + (b - 0x80)], none)
      else ([], some (cp * 64 + (b - 0x80), needed - 1, 0x80, 0xBF))
    else (0xFFFD :: (utf8StepLead b).1, (utf8StepLead b).2)

/-- Run the decoder over the byte list; a sequence left incomplete at
end of input emits one final U+FFFD. -/
def utf8DecodeLoop : Option Pend → List Nat → List Nat
  | st, [] => (match st with | none => [] | some _ => [0xFFFD])
  | st, b :: rest =>
      (utf8Step st b).1 ++ utf8DecodeLoop (utf8Step st b).2 rest

/-- WHATWG UTF-8 decoder (model of `TextDecoder.decode` with
`fatal: false`, which `uint8arrays/to-string` uses).  Never fails:
each malformed sequence is replaced by U+FFFD and decoding
continues. -/
def utf8Decode (bytes : List Nat) : List Nat :=
  utf8DecodeLoop none bytes

/-- A Unicode scalar value: what a JS string element (after surrogate
pairing) and a Lean `Char` may carry, and what "UTF-8-safe" means. -/
def ValidScalar (c : Nat) : Prop :=
  c < 0x110000 ∧ ¬ (0xD800 ≤ c ∧ c ≤ 0xDFFF)

instance : DecidablePred ValidScalar := fun c => by
  unfold ValidScalar; infer_instance

/-- Model of `uint8ArrayFromString` (src/index.js line 3, used at
line 87): JS string to UTF-8 wire bytes. -/
def uint8ArrayFromString (s : String) : List Nat :=
  utf8Encode (s.data.map Char.toNat)

/-- Model of `uint8ArrayToString` (src/index.js line 2, used at
line 75): wire bytes to JS string, total, malformed input decoded with
U+FFFD replacements. -/
def uint8ArrayToString (bytes : List Nat) : String :=
  String.mk ((utf8Decode bytes).map Char.ofNat)

/-! ## Console model

The console's observable behaviour is a list of effects: console
output (`log` via `console.log`, `errlog` via `console.error`), calls
into the underlying IPFS node, process exit, and the readline
re-prompt.  The underlying node (the external collaborator created by
`create(...)`, src/index.js lines 22-44) is an oracle `IpfsNode`
giving each node call's outcome (`Except.error` models a rejected
promise / thrown exception). -/

inductive Effect where
  | log (s : String)
  | errlog (s : String)
  | nodeSubscribe (topic : String)
  | nodePublish (topic : String) (bytes : List Nat)
  | nodeLs
  | nodePeers (topic : String)
  | nodeSwarm
  | nodeStop
  | exitProcess (code : Nat)
  | prompt
deriving DecidableEq, Repr

/-- Oracle for the external IPFS node: the outcome of each call the
console makes on it, plus the identity fetched once at startup
(src/index.js line 54). -/
structure IpfsNode where
  subscribeRes : String → Except String Unit
  publishRes : String → List Nat → Except String Unit
  lsRes : Except String (List String)
  peersRes : String → Except String (List String)
  swarmRes : Except String (List (String × String))
  stopRes : Except String Unit
  nodeId : String
  addresses : List String

namespace pubsubInterface

/-- `pubsubInterface.subscribe` (src/index.js lines 71-82): calls
`node.pubsub.subscribe` and logs success, or catches the failure and
prints one `console.error` line.  The registered per-message callback
is modelled separately as `messageCallback`. -/
def subscribe (node : IpfsNode) (topic : String) : List Effect :=
  Effect.nodeSubscribe topic ::
    (match node.subscribeRes topic with
     | Except.ok _ => [Effect.log ("Subscribed to topic: " ++ topic)]
     | Except.error e => [Effect.errlog ("Failed to subscribe: " ++ e)])

/-- `pubsubInterface.publish` (src/index.js lines 85-93): encodes the
message with `uint8ArrayFromString`, calls `node.pubsub.publish`, logs
success, or catches the failure and prints one `console.error`
line. -/
def publish (node : IpfsNode) (topic message : String) : List Effect :=
  Effect.nodePublish topic (uint8ArrayFromString message) ::
    (match node.publishRes topic (uint8ArrayFromString message) with
     | Except.ok _ => [Effect.log ("Published message to " ++ topic)]
     | Except.error e => [Effect.errlog ("Failed to publish: " ++ e)])

/-- `pubsubInterface.listTopics` (src/index.js lines 96-105). -/
def listTopics (node : IpfsNode) : List Effect :=
  Effect.nodeLs ::
    (match node.lsRes with
     | Except.ok topics =>
         Effect.log "\nSubscribed topics:" ::
           topics.map (fun t => Effect.log ("- " ++ t))
     | Except.error e => [Effect.errlog ("Failed to list topics: " ++ e)])

/-- `pubsubInterface.listPeers` (src/index.js lines 108-117). -/
def listPeers (node : IpfsNode) (topic : String) : List Effect :=
  Effect.nodePeers topic ::
    (match node.peersRes topic with
     | Except.ok peers =>
         Effect.log ("\nPeers subscribed to " ++ topic ++ ":") ::
           peers.map (fun p => Effect.log ("- " ++ p))
     | Except.error e => [Effect.errlog ("Failed to list peers: " ++ e)])

end pubsubInterface

/-- The per-message subscription callback (src/index.js lines 73-77):
`msg.from` is the sender, `msg.data` the raw payload bytes; the body
decodes with `uint8ArrayToString` and prints one `console.log` line.
There is no try/catch in this callback; it never throws only because
the decoder is total. -/
def messageCallback (topic sender : String) (data : List Nat) : List Effect :=
  [Effect.log ("\nReceived message on " ++ topic ++ " from " ++ sender ++
    ": " ++ uint8ArrayToString data)]

/-! ### Line parsing

`input.trim().split(' ')` (src/index.js line 137), modelled on the
character list: JS `split(' ')` splits at every single space,
producing empty tokens for consecutive spaces; `trim` strips leading
and trailing whitespace (modelled with `Char.isWhitespace`; JS also
strips other Unicode whitespace, which no claim exercises).
JS array destructuring `[command, ...args]` is head/tail, and JS
truthiness of `args[i]` (`undefined` and `""` are falsy) is
`jsTruthy`. -/

def splitSp : List Char → List (List Char)
  | [] => [[]]
  | c :: cs =>
    if c = ' ' then [] :: splitSp cs
    else
      match splitSp cs with
      | [] => [[c]]
      | t :: ts => (c :: t) :: ts

def trimChars (l : List Char) : List Char :=
  ((l.dropWhile Char.isWhitespace).reverse.dropWhile Char.isWhitespace).reverse

def parseLine (input : String) : List String :=
  (splitSp (trimChars input.data)).map String.mk

def jsTruthy (args : List String) (i : Nat) : Bool :=
  !(args.getD i "").isEmpty

/-- `processCommand` (src/index.js lines 136-193): dispatch one parsed
line.  Returns the effects performed and, when an awaited node call
outside any try/catch rejects (the `swarm` case's `node.swarm.peers()`
and the `quit` case's `node.stop()`), the uncaught error, which the
`line` listener's try/catch (lines 196-199) turns into one
`console.error` line.  In the `quit` case a failing `stop` therefore
prevents `process.exit(0)` from running. -/
def processCommand (node : IpfsNode) (input : String) :
    List Effect × Option String :=
  let toks := parseLine input
  let command := toks.headD ""
  let args := toks.tail
  if command = "sub" then
    if !(jsTruthy args 0) then ([Effect.log "Usage: sub <topic>"], none)
    else (pubsubInterface.subscribe node (args.getD 0 ""), none)
  else if command = "pub" then
    if !(jsTruthy args 0) || !(jsTruthy args 1) then
      ([Effect.log "Usage: pub <topic> <message>"], none)
    else
      (pubsubInterface.publish node (args.getD 0 "")
        (String.intercalate " " (args.drop 1)), none)
  else if command = "topics" then (pubsubInterface.listTopics node, none)
  else if command = "peers" then
    if !(jsTruthy args 0) then ([Effect.log "Usage: peers <topic>"], none)
    else (pubsubInterface.listPeers node (args.getD 0 ""), none)
  else if command = "info" then
    (Effect.log ("\nNode ID: " ++ node.nodeId) :: Effect.log "Addresses:" ::
      node.addresses.map (fun a => Effect.log ("- " ++ a)), none)
  else if command = "swarm" then
    match node.swarmRes with
    | Except.ok peers =>
        (Effect.nodeSwarm ::
          Effect.log ("\nConnected peers: " ++ toString peers.length) ::
          peers.map (fun p => Effect.log ("- " ++ p.1 ++ ": " ++ p.2)), none)
    | Except.error e => ([Effect.nodeSwarm], some e)
  else if command = "quit" then
    match node.stopRes with
    | Except.ok _ =>
        ([Effect.log "Shutting down...", Effect.nodeStop,
          Effect.exitProcess 0], none)
    | Except.error e =>
        ([Effect.log "Shutting down...", Effect.nodeStop], some e)
  else ([Effect.log "Unknown command. Type help for available commands."],
    none)

/-- The `rl.on('line')` listener body (src/index.js lines 195-202):
`try { await processCommand(input) } catch { console.error(...) }`
then `rl.prompt()`.  The re-prompt always runs, so a failed command
never kills the console. -/
def lineHandler (node : IpfsNode) (input : String) : List Effect :=
  (processCommand node input).1 ++
    (match (processCommand node input).2 with
     | some e => [Effect.errlog ("Error processing command: " ++ e)]
     | none => []) ++ [Effect.prompt]

/-- The `process.on('SIGINT')` handler (src/index.js lines 207-211):
log, `await node.stop()`, `process.exit(0)`; nothing catches a failing
`stop` here. -/
def sigintHandler (node : IpfsNode) : List Effect × Option String :=
  match node.stopRes with
  | Except.ok _ =>
      ([Effect.log "\nShutting down IPFS node...", Effect.nodeStop,
        Effect.exitProcess 0], none)
  | Except.error e =>
      ([Effect.log "\nShutting down IPFS node...", Effect.nodeStop], some e)

/-! ## Interleaving model for the two racy fragments

Node.js runs handlers on one thread, but an `await` suspends the
running handler and lets another queued handler (a later `line` event,
or a signal handler) run to its own next suspension point.  A handler
is therefore a list of *blocks*: maximal code runs between `await`
suspension points, executed atomically.  `interleaveBlocks` merges two
handlers' block lists under a schedule: `true` runs the next block of
the first handler, `false` of the second; an exhausted schedule runs
the remaining blocks of the first handler, then of the second (a
deterministic completion; every prefix behaviour is reachable via the
schedule). -/

def interleaveBlocks {α : Type} : List Bool → List (List α) → List (List α) →
    List α
  | [], t1, t2 => t1.flatten ++ t2.flatten
  | true :: sched, [], t2 => interleaveBlocks sched [] t2
  | true :: sched, b :: t1, t2 => b ++ interleaveBlocks sched t1 t2
  | false :: sched, t1, [] => interleaveBlocks sched t1 []
  | false :: sched, t1, b :: t2 => b ++ interleaveBlocks sched t1 t2

/-- The `quit` case of `processCommand` (src/index.js lines 184-188)
as blocks: `console.log` and the call into `node.stop()` run
synchronously, the `await` suspends, then `process.exit(0)` runs. -/
def quitBlocks : List (List Effect) :=
  [[Effect.log "Shutting down...", Effect.nodeStop], [Effect.exitProcess 0]]

/-- The SIGINT handler (src/index.js lines 207-211) as blocks, same
shape: log and `node.stop()` call, `await` suspension, then
`process.exit(0)`.  Neither handler consults any "stopped" flag: no
such flag exists in the program. -/
def sigintBlocks : List (List Effect) :=
  [[Effect.log "\nShutting down IPFS node...", Effect.nodeStop],
   [Effect.exitProcess 0]]

/-- `process.exit` terminates the process: effects after the first
`exitProcess` never happen. -/
def untilExit (tr : List Effect) : List Effect :=
  tr.takeWhile (fun e => match e with
    | Effect.exitProcess _ => false
    | _ => true)

/-- How many times `node.stop()` is actually called in a trace. -/
def stopCount (tr : List Effect) : Nat :=
  (untilExit tr).countP (fun e => match e with
    | Effect.nodeStop => true
    | _ => false)

/-! ### Console line serialization model

Actions of the readline console, tagged with the 1-based index of the
input line they belong to.  The `line` listener (src/index.js lines
195-202) for line `i` is: the event fires and dispatch begins
synchronously (`lineRead i`, `dispatchStart i`), the handler suspends
at `await processCommand(input)`, then the dispatch settles and
`rl.prompt()` runs (`dispatchEnd i`, `reprompt i`).  Node's readline
emits `line` events as input arrives; it does not wait for a previous
async listener invocation to settle, so a second line's blocks may be
scheduled while the first handler is suspended — which schedule the
`interleaveBlocks` argument chooses. -/

inductive ConsoleAct where
  | lineRead (i : Nat)
  | dispatchStart (i : Nat)
  | dispatchEnd (i : Nat)
  | reprompt (i : Nat)
deriving DecidableEq, Repr

def lineHandlerBlocks (i : Nat) : List (List ConsoleAct) :=
  [[ConsoleAct.lineRead i, ConsoleAct.dispatchStart i],
   [ConsoleAct.dispatchEnd i, ConsoleAct.reprompt i]]

/-- `a` never occurs before the first `b` in the trace. -/
def NotBefore (a b : ConsoleAct) (tr : List ConsoleAct) : Prop :=
  a ∉ tr.takeWhile (fun x => x ≠ b)

instance (a b : ConsoleAct) (tr : List ConsoleAct) :
    Decidable (NotBefore a b tr) := by
  unfold NotBefore; infer_instance

/-! ### Decoder output validity

Every code point the decoder emits is a Unicode scalar value, so the
decoded text is always renderable and the subscription callback can
never be handed an undisplayable code point: the formal content of
"decoding never throws".  `PendInv` is the reachable-state invariant
of the decoder. -/
def PendInv : Option Pend → Prop
  | none => True
  | some (cp, needed, lo, hi) =>
      (needed = 1 ∧ lo = 0x80 ∧ hi = 0xBF ∧ 2 ≤ cp ∧ cp ≤ 0x43FF ∧
        ¬ (0x360 ≤ cp ∧ cp ≤ 0x37F))
    ∨ (needed = 2 ∧ cp ≤ 0xF ∧ lo = (if cp = 0 then 0xA0 else 0x80) ∧
        hi = (if cp = 0xD then 0x9F else 0xBF))
    ∨ (needed = 2 ∧ 0x10 ≤ cp ∧ cp ≤ 0x10F ∧ lo = 0x80 ∧ hi = 0xBF)
    ∨ (needed = 3 ∧ cp ≤ 4 ∧ lo = (if cp = 0 then 0x90 else 0x80) ∧
        hi = (if cp = 4 then 0x8F else 0xBF))

/-- A node oracle on which every call succeeds, for concrete runs. -/
def okNode : IpfsNode :=
  { subscribeRes := fun _ => Except.ok ()
    publishRes := fun _ _ => Except.ok ()
    lsRes := Except.ok ["news"]
    peersRes := fun _ => Except.ok []
    swarmRes := Except.ok []
    stopRes := Except.ok ()
    nodeId := "QmTestNode"
    addresses := ["/ip4/127.0.0.1/tcp/4002"] }

/-- A node oracle on which every call fails, for concrete runs of the
error paths. -/
def failNode : IpfsNode :=
  { subscribeRes := fun _ => Except.error "boom"
    publishRes := fun _ _ => Except.error "boom"
    lsRes := Except.error "boom"
    peersRes := fun _ => Except.error "boom"
    swarmRes := Except.error "boom"
    stopRes := Except.error "boom"
    nodeId := "QmTestNode"
    addresses := [] }

/-! ## Helper theorems -/

theorem getRandomPort_lb (min max : ℤ) (r : ℚ) (h0 : 0 ≤ r) (hlt : min < max) :
    min ≤ getRandomPort min max r := by
  unfold getRandomPort
  rw [Int.le_floor]
  have hd : (0 : ℚ) ≤ (max : ℚ) - (min : ℚ) := by
    have : (min : ℚ) ≤ (max : ℚ) := by exact_mod_cast hlt.le
    linarith
  nlinarith

theorem getRandomPort_ub (min max : ℤ) (r : ℚ) (h0 : 0 ≤ r) (h1 : r < 1)
    (hlt : min < max) : getRandomPort min max r < max := by
  unfold getRandomPort
  rw [Int.floor_lt]
  have hd : (0 : ℚ) < (max : ℚ) - (min : ℚ) := by
    have : (min : ℚ) < (max : ℚ) := by exact_mod_cast hlt
    linarith
  nlinarith

/-! ### Decoder evaluation lemmas -/

theorem utf8Step_none (b : Nat) : utf8Step none b = utf8StepLead b := rfl

theorem utf8StepLead_one {b : Nat} (h : b ≤ 0x7F) :
    utf8StepLead b = ([b], none) := by
  unfold utf8StepLead; rw [if_pos h]

theorem utf8StepLead_two {b : Nat} (h1 : 0xC2 ≤ b) (h2 : b ≤ 0xDF) :
    utf8StepLead b = ([], some (b - 0xC0, 1, 0x80, 0xBF)) := by
  unfold utf8StepLead
  rw [if_neg (by omega), if_pos ⟨h1, h2⟩]

theorem utf8StepLead_three {b : Nat} (h1 : 0xE0 ≤ b) (h2 : b ≤ 0xEF) :
    utf8StepLead b = ([], some (b - 0xE0, 2, if b = 0xE0 then 0xA0 else 0x80,
      if b = 0xED then 0x9F else 0xBF)) := by
  unfold utf8StepLead
  rw [if_neg (by omega), if_neg (by omega), if_pos ⟨h1, h2⟩]

theorem utf8StepLead_four {b : Nat} (h1 : 0xF0 ≤ b) (h2 : b ≤ 0xF4) :
    utf8StepLead b = ([], some (b - 0xF0, 3, if b = 0xF0 then 0x90 else 0x80,
      if b = 0xF4 then 0x8F else 0xBF)) := by
  unfold utf8StepLead
  rw [if_neg (by omega), if_neg (by omega), if_neg (by omega), if_pos ⟨h1, h2⟩]

theorem utf8Step_done {cp lo hi b : Nat} (h1 : lo ≤ b) (h2 : b ≤ hi) :
    utf8Step (some (cp, 1, lo, hi)) b = ([cp * 64 + (b - 0x80)], none) := by
  unfold utf8Step
  dsimp only
  rw [if_pos ⟨h1, h2⟩, if_pos rfl]

theorem utf8Step_more {cp needed lo hi b : Nat} (h1 : lo ≤ b) (h2 : b ≤ hi)
    (hn : needed ≠ 1) :
    utf8Step (some (cp, needed, lo, hi)) b =
      ([], some (cp * 64 + (b - 0x80), needed - 1, 0x80, 0xBF)) := by
  unfold utf8Step
  dsimp only
  rw [if_pos ⟨h1, h2⟩, if_neg hn]

theorem utf8DecodeLoop_cons (st : Option Pend) (b : Nat) (rest : List Nat) :
    utf8DecodeLoop st (b :: rest) =
      (utf8Step st b).1 ++ utf8DecodeLoop (utf8Step st b).2 rest := rfl

/-- Decoding an encoded scalar value in front of any remaining bytes
recovers the scalar value and continues: the heart of the
encode-then-decode round trip. -/
theorem utf8DecodeLoop_encodeChar (c : Nat) (h1 : c < 0x110000)
    (h2 : ¬ (0xD800 ≤ c ∧ c ≤ 0xDFFF)) (rest : List Nat) :
    utf8DecodeLoop none (utf8EncodeChar c ++ rest) =
      c :: utf8DecodeLoop none rest := by
  by_cases hA : c < 0x80
  · have e : utf8EncodeChar c = [c] := by
      unfold utf8EncodeChar; rw [if_pos hA]
    rw [e]
    simp only [List.cons_append, List.nil_append, utf8DecodeLoop_cons,
      utf8Step_none, utf8StepLead_one (show c ≤ 0x7F by omega)]
  · by_cases hB : c < 0x800
    · have e : utf8EncodeChar c = [0xC0 + c / 64, 0x80 + c % 64] := by
        unfold utf8EncodeChar; rw [if_neg hA, if_pos hB]
      have s1 : utf8Step none (0xC0 + c / 64) =
          ([], some (0xC0 + c / 64 - 0xC0, 1, 0x80, 0xBF)) := by
        rw [utf8Step_none]; exact utf8StepLead_two (by omega) (by omega)
      have s2 : utf8Step (some (0xC0 + c / 64 - 0xC0, 1, 0x80, 0xBF))
          (0x80 + c % 64) = ([c], none) := by
        rw [utf8Step_done (by omega) (by omega),
          show (0xC0 + c / 64 - 0xC0) * 64 + (0x80 + c % 64 - 0x80) = c
            from by omega]
      rw [e]
      simp only [List.cons_append, List.nil_append, utf8DecodeLoop_cons, s1]
      simp only [utf8DecodeLoop_cons, s2]
      simp
    · by_cases hC : c < 0x10000
      · have e : utf8EncodeChar c =
            [0xE0 + c / 4096, 0x80 + c / 64 % 64, 0x80 + c % 64] := by
          unfold utf8EncodeChar; rw [if_neg hA, if_neg hB, if_pos hC]
        have s1 : utf8Step none (0xE0 + c / 4096) =
            ([], some (0xE0 + c / 4096 - 0xE0, 2,
              if 0xE0 + c / 4096 = 0xE0 then 0xA0 else 0x80,
              if 0xE0 + c / 4096 = 0xED then 0x9F else 0xBF)) := by
          rw [utf8Step_none]; exact utf8StepLead_three (by omega) (by omega)
        have s2 : utf8Step (some (0xE0 + c / 4096 - 0xE0, 2,
            if 0xE0 + c / 4096 = 0xE0 then 0xA0 else 0x80,
            if 0xE0 + c / 4096 = 0xED then 0x9F else 0xBF))
            (0x80 + c / 64 % 64) =
            ([], some ((0xE0 + c / 4096 - 0xE0) * 64 +
              (0x80 + c / 64 % 64 - 0x80), 1, 0x80, 0xBF)) := by
          refine utf8Step_more ?_ ?_ (by omega)
          · split_ifs <;> omega
          · split_ifs <;> omega
        have s3 : utf8Step (some ((0xE0 + c / 4096 - 0xE0) * 64 +
            (0x80 + c / 64 % 64 - 0x80), 1, 0x80, 0xBF)) (0x80 + c % 64) =
            ([c], none) := by
          rw [utf8Step_done (by omega) (by omega),
            show ((0xE0 + c / 4096 - 0xE0) * 64 + (0x80 + c / 64 % 64 - 0x80))
              * 64 + (0x80 + c % 64 - 0x80) = c from by omega]
        rw [e]
        simp only [List.cons_append, List.nil_append, utf8DecodeLoop_cons, s1]
        simp only [utf8DecodeLoop_cons, s2]
        simp only [utf8DecodeLoop_cons, s3]
        simp
      · have e : utf8EncodeChar c =
            [0xF0 + c / 262144, 0x80 + c / 4096 % 64, 0x80 + c / 64 % 64,
             0x80 + c % 64] := by
          unfold utf8EncodeChar; rw [if_neg hA, if_neg hB, if_neg hC]
        have s1 : utf8Step none (0xF0 + c / 262144) =
            ([], some (0xF0 + c / 262144 - 0xF0, 3,
              if 0xF0 + c / 262144 = 0xF0 then 0x90 else 0x80,
              if 0xF0 + c / 262144 = 0xF4 then 0x8F else 0xBF)) := by
          rw [utf8Step_none]; exact utf8StepLead_four (by omega) (by omega)
        have s2 : utf8Step (some (0xF0 + c / 262144 - 0xF0, 3,
            if 0xF0 + c / 262144 = 0xF0 then 0x90 else 0x80,
            if 0xF0 + c / 262144 = 0xF4 then 0x8F else 0xBF))
            (0x80 + c / 4096 % 64) =
            ([], some ((0xF0 + c / 262144 - 0xF0) * 64 +
              (0x80 + c / 4096 % 64 - 0x80), 2, 0x80, 0xBF)) := by
          refine utf8Step_more ?_ ?_ (by omega)
          · split_ifs <;> omega
          · split_ifs <;> omega
        have s3 : utf8Step (some ((0xF0 + c / 262144 - 0xF0) * 64 +
            (0x80 + c / 4096 % 64 - 0x80), 2, 0x80, 0xBF))
            (0x80 + c / 64 % 64) =
            ([], some (((0xF0 + c / 262144 - 0xF0) * 64 +
              (0x80 + c / 4096 % 64 - 0x80)) * 64 +
              (0x80 + c / 64 % 64 - 0x80), 1, 0x80, 0xBF)) :=
          utf8Step_more (by omega) (by omega) (by omega)
        have s4 : utf8Step (some (((0xF0 + c / 262144 - 0xF0) * 64 +
            (0x80 + c / 4096 % 64 - 0x80)) * 64 +
            (0x80 + c / 64 % 64 - 0x80), 1, 0x80, 0xBF)) (0x80 + c % 64) =
            ([c], none) := by
          rw [utf8Step_done (by omega) (by omega),
            show (((0xF0 + c / 262144 - 0xF0) * 64 +
              (0x80 + c / 4096 % 64 - 0x80)) * 64 +
              (0x80 + c / 64 % 64 - 0x80)) * 64 + (0x80 + c % 64 - 0x80) = c
              from by omega]
        rw [e]
        simp only [List.cons_append, List.nil_append, utf8DecodeLoop_cons, s1]
        simp only [utf8DecodeLoop_cons, s2]
        simp only [utf8DecodeLoop_cons, s3]
        simp only [utf8DecodeLoop_cons, s4]
        simp

/-- Encode-then-decode is the identity on sequences of Unicode scalar
values. -/
theorem utf8Decode_utf8Encode (l : List Nat) (h : ∀ c ∈ l, ValidScalar c) :
    utf8Decode (utf8Encode l) = l := by
  unfold utf8Decode
  induction l with
  | nil => rfl
  | cons c cs ih =>
    obtain ⟨hc1, hc2⟩ := h c (List.mem_cons_self c cs)
    have e : utf8Encode (c :: cs) = utf8EncodeChar c ++ utf8Encode cs := by
      unfold utf8Encode; simp
    rw [e, utf8DecodeLoop_encodeChar c hc1 hc2]
    have tail := ih (fun x hx => h x (List.mem_cons_of_mem c hx))
    unfold utf8Encode at tail ⊢
    rw [tail]

theorem charOfNat_toNat (c : Char) : Char.ofNat c.toNat = c := by
  unfold Char.ofNat
  rw [dif_pos (show Nat.isValidChar c.toNat from c.valid)]
  unfold Char.ofNatAux
  apply Char.ext
  apply UInt32.ext
  rfl

/-- Every element of a Lean `String` (like every scalar value of a
well-formed JS string) is a Unicode scalar value. -/
theorem char_valid_scalar (c : Char) : ValidScalar c.toNat := by
  have h := c.valid
  unfold UInt32.isValidChar Nat.isValidChar at h
  unfold Char.toNat
  constructor <;> omega

theorem interleaveBlocks_nil_right {α : Type} (sched : List Bool)
    (t1 : List (List α)) : interleaveBlocks sched t1 [] = t1.flatten := by
  induction sched generalizing t1 with
  | nil => simp [interleaveBlocks]
  | cons s sched ih =>
    cases s
    · simp [interleaveBlocks, ih]
    · cases t1 with
      | nil => simp [interleaveBlocks, ih]
      | cons b t1 => simp [interleaveBlocks, ih]

theorem validScalar_iff (c : Nat) :
    ValidScalar c ↔ c < 0x110000 ∧ ¬ (0xD800 ≤ c ∧ c ≤ 0xDFFF) := Iff.rfl

theorem utf8StepLead_inv (b : Nat) :
    (∀ c ∈ (utf8StepLead b).1, ValidScalar c) ∧ PendInv (utf8StepLead b).2 := by
  by_cases h1 : b ≤ 0x7F
  · rw [utf8StepLead_one h1]
    refine ⟨?_, trivial⟩
    intro c hc; simp at hc; subst hc
    rw [validScalar_iff]; omega
  · by_cases h2 : 0xC2 ≤ b ∧ b ≤ 0xDF
    · rw [utf8StepLead_two h2.1 h2.2]
      refine ⟨by simp, ?_⟩
      unfold PendInv
      left
      exact ⟨rfl, rfl, rfl, by omega, by omega, by omega⟩
    · by_cases h3 : 0xE0 ≤ b ∧ b ≤ 0xEF
      · rw [utf8StepLead_three h3.1 h3.2]
        refine ⟨by simp, ?_⟩
        unfold PendInv
        right; left
        refine ⟨rfl, by omega, ?_, ?_⟩ <;> split_ifs <;> omega
      · by_cases h4 : 0xF0 ≤ b ∧ b ≤ 0xF4
        · rw [utf8StepLead_four h4.1 h4.2]
          refine ⟨by simp, ?_⟩
          unfold PendInv
          right; right; right
          refine ⟨rfl, by omega, ?_, ?_⟩ <;> split_ifs <;> omega
        · have e : utf8StepLead b = ([0xFFFD], none) := by
            unfold utf8StepLead
            rw [if_neg h1, if_neg h2, if_neg h3, if_neg h4]
          rw [e]
          refine ⟨?_, trivial⟩
          intro c hc; simp at hc; subst hc
          rw [validScalar_iff]; omega

set_option maxRecDepth 4000 in
theorem utf8Step_inv (st : Option Pend) (b : Nat) (h : PendInv st) :
    (∀ c ∈ (utf8Step st b).1, ValidScalar c) ∧ PendInv (utf8Step st b).2 := by
  match st with
  | none => exact utf8StepLead_inv b
  | some (cp, needed, lo, hi) =>
    unfold utf8Step
    dsimp only
    split_ifs with hw hn
    · refine ⟨?_, trivial⟩
      intro c hc; simp at hc; subst hc
      unfold PendInv at h
      rw [validScalar_iff]
      rcases h with ⟨_, hl, hh, hcp⟩ | ⟨hne, _⟩ | ⟨hne, _⟩ | ⟨hne, _⟩
      · subst hl; subst hh; omega
      all_goals omega
    · refine ⟨by simp, ?_⟩
      unfold PendInv at h ⊢
      rcases h with ⟨h1, _⟩ | ⟨h1, hcp, hl, hh⟩ | ⟨h1, hcp1, hcp2, hl, hh⟩ |
        ⟨h1, hcp, hl, hh⟩
      · omega
      · subst h1
        left
        refine ⟨rfl, rfl, rfl, ?_, ?_, ?_⟩ <;>
          (revert hw; rw [hl, hh]; split_ifs <;> · intro hw; omega)
      · subst h1
        left
        subst hl; subst hh
        exact ⟨rfl, rfl, rfl, by omega, by omega, by omega⟩
      · subst h1
        right; right; left
        refine ⟨rfl, ?_, ?_, rfl, rfl⟩ <;>
          (revert hw; rw [hl, hh]; split_ifs <;> · intro hw; omega)
    · have hlead := utf8StepLead_inv b
      refine ⟨?_, hlead.2⟩
      intro c hc
      simp at hc
      rcases hc with hc | hc
      · subst hc; rw [validScalar_iff]; omega
      · exact hlead.1 c hc

theorem utf8DecodeLoop_inv (bytes : List Nat) (st : Option Pend)
    (h : PendInv st) : ∀ c ∈ utf8DecodeLoop st bytes, ValidScalar c := by
  induction bytes generalizing st with
  | nil =>
    intro c hc
    unfold utf8DecodeLoop at hc
    match st with
    | none => simp at hc
    | some p =>
      simp at hc; subst hc; rw [validScalar_iff]; omega
  | cons b rest ih =>
    intro c hc
    rw [utf8DecodeLoop_cons] at hc
    rcases List.mem_append.mp hc with hc | hc
    · exact (utf8Step_inv st b h).1 c hc
    · exact ih _ (utf8Step_inv st b h).2 c hc

theorem utf8Decode_valid (bytes : List Nat) :
    ∀ c ∈ utf8Decode bytes, ValidScalar c :=
  utf8DecodeLoop_inv bytes none trivial

/-! ## The claims -/

/-- C6: every generated PortSet has its four ports in the half-open
ranges `[4002,4999)` (swarm), `[5000,5999)` (websocket), `[6000,6999)`
(API), `[7000,7999)` (gateway), each computed as
`floor(min + random()*(max-min))` with `random()` in `[0,1)`, and the
four ranges are pairwise disjoint. -/
theorem claim_C6 (r1 r2 r3 r4 : ℚ)
    (h1a : 0 ≤ r1) (h1b : r1 < 1) (h2a : 0 ≤ r2) (h2b : r2 < 1)
    (h3a : 0 ≤ r3) (h3b : r3 < 1) (h4a : 0 ≤ r4) (h4b : r4 < 1) :
    (4002 ≤ swarmPort r1 ∧ swarmPort r1 < 4999) ∧
    (5000 ≤ wsPort r2 ∧ wsPort r2 < 5999) ∧
    (6000 ≤ apiPort r3 ∧ apiPort r3 < 6999) ∧
    (7000 ≤ gatewayPort r4 ∧ gatewayPort r4 < 7999) ∧
    (∀ x : ℤ, ¬ ((4002 ≤ x ∧ x < 4999) ∧ (5000 ≤ x ∧ x < 5999))) ∧
    (∀ x : ℤ, ¬ ((4002 ≤ x ∧ x < 4999) ∧ (6000 ≤ x ∧ x < 6999))) ∧
    (∀ x : ℤ, ¬ ((4002 ≤ x ∧ x < 4999) ∧ (7000 ≤ x ∧ x < 7999))) ∧
    (∀ x : ℤ, ¬ ((5000 ≤ x ∧ x < 5999) ∧ (6000 ≤ x ∧ x < 6999))) ∧
    (∀ x : ℤ, ¬ ((5000 ≤ x ∧ x < 5999) ∧ (7000 ≤ x ∧ x < 7999))) ∧
    (∀ x : ℤ, ¬ ((6000 ≤ x ∧ x < 6999) ∧ (7000 ≤ x ∧ x < 7999))) := by
  refine ⟨⟨getRandomPort_lb _ _ _ h1a (by norm_num),
           getRandomPort_ub _ _ _ h1a h1b (by norm_num)⟩,
          ⟨getRandomPort_lb _ _ _ h2a (by norm_num),
           getRandomPort_ub _ _ _ h2a h2b (by norm_num)⟩,
          ⟨getRandomPort_lb _ _ _ h3a (by norm_num),
           getRandomPort_ub _ _ _ h3a h3b (by norm_num)⟩,
          ⟨getRandomPort_lb _ _ _ h4a (by norm_num),
           getRandomPort_ub _ _ _ h4a h4b (by norm_num)⟩,
          ?_, ?_, ?_, ?_, ?_, ?_⟩ <;> (intro x; omega)

/-- C6 witness: the bounds at the concrete random draw `1/2`. -/
theorem claim_C6_witness :
    (4002 ≤ swarmPort (1/2) ∧ swarmPort (1/2) < 4999) ∧
    (5000 ≤ wsPort (1/2) ∧ wsPort (1/2) < 5999) ∧
    (6000 ≤ apiPort (1/2) ∧ apiPort (1/2) < 6999) ∧
    (7000 ≤ gatewayPort (1/2) ∧ gatewayPort (1/2) < 7999) := by
  have h := claim_C6 (1/2) (1/2) (1/2) (1/2) (by norm_num) (by norm_num)
    (by norm_num) (by norm_num) (by norm_num) (by norm_num) (by norm_num)
    (by norm_num)
  exact ⟨h.1, h.2.1, h.2.2.1, h.2.2.2.1⟩

/-- C7: the repository path is a deterministic function of the swarm
port alone, of the form `./ipfs-repo-<swarmPort>`: it is unchanged
under any change of the other three ports, and two runs with equal
swarm ports produce equal paths. -/
theorem claim_C7 (s w a g w2 a2 g2 : ℤ) :
    repoPath s w a g = repoPath s w2 a2 g2 ∧
    repoPath s w a g = "./ipfs-repo-" ++ toString s :=
  ⟨rfl, rfl⟩

/-- C5: encoding a string to wire bytes as `publish` does and decoding
them as the subscription callback does yields the string again, so a
subscriber receiving an echoed published message `M` logs a payload
equal to `M`. -/
theorem claim_C5 (s : String) :
    uint8ArrayToString (uint8ArrayFromString s) = s ∧
    ∀ (topic sender : String),
      messageCallback topic sender (uint8ArrayFromString s) =
        [Effect.log ("\nReceived message on " ++ topic ++ " from " ++
          sender ++ ": " ++ s)] := by
  have key : uint8ArrayToString (uint8ArrayFromString s) = s := by
    unfold uint8ArrayToString uint8ArrayFromString
    rw [utf8Decode_utf8Encode _ (by
      intro c hc
      simp at hc
      obtain ⟨ch, _, rfl⟩ := hc
      exact char_valid_scalar ch)]
    rw [List.map_map]
    have e : Char.ofNat ∘ Char.toNat = id := funext charOfNat_toNat
    rw [e, List.map_id]
  exact ⟨key, fun topic sender => by unfold messageCallback; rw [key]⟩

/-- C4: a `pub` line carrying only one argument (a topic but no
message) prints the usage message, never invokes the façade's publish,
and returns to awaiting the next line (the handler still re-prompts
without dispatching). -/
theorem claim_C4 (node : IpfsNode) (input : String) (t : String)
    (hp : parseLine input = ["pub", t]) :
    processCommand node input =
      ([Effect.log "Usage: pub <topic> <message>"], none) ∧
    lineHandler node input =
      [Effect.log "Usage: pub <topic> <message>", Effect.prompt] ∧
    ∀ (tp : String) (bs : List Nat),
      Effect.nodePublish tp bs ∉ lineHandler node input := by
  have h1 : processCommand node input =
      ([Effect.log "Usage: pub <topic> <message>"], none) := by
    simp [processCommand, hp, jsTruthy]
    intro _ h2
    exact absurd h2 (by decide)
  have h2 : lineHandler node input =
      [Effect.log "Usage: pub <topic> <message>", Effect.prompt] := by
    unfold lineHandler
    rw [h1]
    rfl
  refine ⟨h1, h2, ?_⟩
  intro tp bs
  rw [h2]
  simp

/-- C4 witness: the concrete line `pub news`. -/
theorem claim_C4_witness :
    processCommand okNode "pub news" =
      ([Effect.log "Usage: pub <topic> <message>"], none) ∧
    lineHandler okNode "pub news" =
      [Effect.log "Usage: pub <topic> <message>", Effect.prompt] := by
  have h := claim_C4 okNode "pub news" "news" (by decide)
  exact ⟨h.1, h.2.1⟩

/-- C10: a `pub` line in which the token immediately after the topic
is empty (two consecutive spaces) is rejected with the usage message
and publish is not invoked, even though a non-empty message text
follows: the arity guard tests JS truthiness of `args[1]`, and the
empty token is falsy. -/
theorem claim_C10 (node : IpfsNode) (input : String) (t : String)
    (rest : List String)
    (hp : parseLine input = "pub" :: t :: "" :: rest)
    (ht : t ≠ "") (hm : rest ≠ []) :
    processCommand node input =
      ([Effect.log "Usage: pub <topic> <message>"], none) ∧
    ∀ (tp : String) (bs : List Nat),
      Effect.nodePublish tp bs ∉ (processCommand node input).1 := by
  have h1 : processCommand node input =
      ([Effect.log "Usage: pub <topic> <message>"], none) := by
    simp [processCommand, hp, jsTruthy]
    intro _ h2
    exact absurd h2 (by decide)
  refine ⟨h1, ?_⟩
  intro tp bs
  rw [h1]
  simp

/-- C10 witness: the concrete line `pub news  hello` (two spaces after
the topic). -/
theorem claim_C10_witness :
    processCommand okNode "pub news  hello" =
      ([Effect.log "Usage: pub <topic> <message>"], none) :=
  (claim_C10 okNode "pub news  hello" "news" ["hello"] (by decide)
    (by decide) (by decide)).1

/-- C8: for each of the four façade operations, a failing node call is
caught at the operation boundary and converted to exactly one
descriptive printed line (one `console.error` line after the node-call
marker), and the console survives: the handler re-prompts on every
input whatever the node does, so no failed command is dropped without
feedback. -/
theorem claim_C8 (node : IpfsNode) (e : String) (t m : String) :
    (node.subscribeRes t = Except.error e →
      pubsubInterface.subscribe node t =
        [Effect.nodeSubscribe t,
         Effect.errlog ("Failed to subscribe: " ++ e)]) ∧
    (node.publishRes t (uint8ArrayFromString m) = Except.error e →
      pubsubInterface.publish node t m =
        [Effect.nodePublish t (uint8ArrayFromString m),
         Effect.errlog ("Failed to publish: " ++ e)]) ∧
    (node.lsRes = Except.error e →
      pubsubInterface.listTopics node =
        [Effect.nodeLs, Effect.errlog ("Failed to list topics: " ++ e)]) ∧
    (node.peersRes t = Except.error e →
      pubsubInterface.listPeers node t =
        [Effect.nodePeers t,
         Effect.errlog ("Failed to list peers: " ++ e)]) ∧
    (∀ input : String,
      (lineHandler node input).getLast? = some Effect.prompt) := by
  refine ⟨?_, ?_, ?_, ?_, ?_⟩
  · intro h; unfold pubsubInterface.subscribe; rw [h]
  · intro h; unfold pubsubInterface.publish; rw [h]
  · intro h; unfold pubsubInterface.listTopics; rw [h]
  · intro h; unfold pubsubInterface.listPeers; rw [h]
  · intro input
    unfold lineHandler
    exact List.getLast?_concat _

/-- C8 witness: the concrete all-failing node. -/
theorem claim_C8_witness :
    pubsubInterface.subscribe failNode "news" =
      [Effect.nodeSubscribe "news",
       Effect.errlog ("Failed to subscribe: " ++ "boom")] ∧
    pubsubInterface.publish failNode "news" "hi" =
      [Effect.nodePublish "news" (uint8ArrayFromString "hi"),
       Effect.errlog ("Failed to publish: " ++ "boom")] ∧
    pubsubInterface.listTopics failNode =
      [Effect.nodeLs, Effect.errlog ("Failed to list topics: " ++ "boom")] ∧
    pubsubInterface.listPeers failNode "news" =
      [Effect.nodePeers "news",
       Effect.errlog ("Failed to list peers: " ++ "boom")] ∧
    (lineHandler failNode "topics").getLast? = some Effect.prompt := by
  have h := claim_C8 failNode "boom" "news" "hi"
  exact ⟨h.1 rfl, h.2.1 rfl, h.2.2.1 rfl, h.2.2.2.1 rfl, h.2.2.2.2 "topics"⟩

/-- C9: when `node.stop()` succeeds, the `quit` command logs, stops
the node, then exits the process with code 0; and the SIGINT handler
performs the same shutdown sequence (stop, then exit with code 0). -/
theorem claim_C9 (node : IpfsNode) (h : node.stopRes = Except.ok ()) :
    processCommand node "quit" =
      ([Effect.log "Shutting down...", Effect.nodeStop,
        Effect.exitProcess 0], none) ∧
    sigintHandler node =
      ([Effect.log "\nShutting down IPFS node...", Effect.nodeStop,
        Effect.exitProcess 0], none) := by
  have hp : parseLine "quit" = ["quit"] := by decide
  constructor
  · simp [processCommand, hp, h]
  · unfold sigintHandler; rw [h]

/-- C9 witness: the concrete all-succeeding node. -/
theorem claim_C9_witness :
    processCommand okNode "quit" =
      ([Effect.log "Shutting down...", Effect.nodeStop,
        Effect.exitProcess 0], none) ∧
    sigintHandler okNode =
      ([Effect.log "\nShutting down IPFS node...", Effect.nodeStop,
        Effect.exitProcess 0], none) :=
  claim_C9 okNode rfl

/-- C1 counterexample: the claim that every interleaving of an
in-flight `quit` dispatch with a concurrently delivered SIGINT calls
`node.stop()` exactly once is false: the schedule that runs the quit
handler to its `await node.stop()` suspension and then the SIGINT
handler reaches two stop calls, because neither handler checks any
"stopped" flag (none exists in the program). -/
theorem claim_C1_counterexample :
    ¬ (∀ sched : List Bool,
        stopCount (interleaveBlocks sched quitBlocks sigintBlocks) = 1) := by
  intro h
  exact absurd (h [true, false]) (by decide)

/-- C1 (amended): issuing `quit` once with no concurrent signal calls
stop exactly once (under every schedule of the quit handler alone),
but the release is not idempotence-guarded — no "stopped" flag exists —
so there is an interleaving of a SIGINT with an in-flight `quit`
dispatch in which `node.stop()` is called twice. -/
theorem claim_C1 :
    (∀ sched : List Bool,
      stopCount (interleaveBlocks sched quitBlocks []) = 1) ∧
    (∃ sched : List Bool,
      stopCount (interleaveBlocks sched quitBlocks sigintBlocks) = 2) := by
  constructor
  · intro sched
    rw [interleaveBlocks_nil_right]
    decide
  · exact ⟨[true, false], by decide⟩

/-- C2 counterexample: the claim that a malformed payload is logged as
a decode failure is false: the subscription callback has no decode
error path at all — for the malformed payload `[0xFF]` (an invalid
UTF-8 lead byte, decoded as U+FFFD) it emits no `console.error`
effect. -/
theorem claim_C2_counterexample :
    ¬ (∀ (topic sender : String) (data : List Nat),
        0xFFFD ∈ utf8Decode data →
        ∃ e, Effect.errlog e ∈ messageCallback topic sender data) := by
  intro h
  obtain ⟨e, he⟩ := h "news" "QmPeer" [0xFF] (by decide)
  simp [messageCallback] at he

/-- C2 (amended): decoding the payload never throws past the callback
boundary because the decoder is total — every payload, malformed or
not, produces exactly the one ordinary received-message log line for
that message, every code point the decoder emits is a Unicode scalar
value (hence renderable), and a malformed payload such as `[0xFF]`
shows up as the replacement character U+FFFD in that line rather than
as a separate decode-failure log. -/
theorem claim_C2 :
    (∀ (topic sender : String) (data : List Nat),
      messageCallback topic sender data =
        [Effect.log ("\nReceived message on " ++ topic ++ " from " ++
          sender ++ ": " ++ uint8ArrayToString data)] ∧
      ∀ c ∈ utf8Decode data, ValidScalar c) ∧
    utf8Decode [0xFF] = [0xFFFD] :=
  ⟨fun topic sender data => ⟨rfl, utf8Decode_valid data⟩, by decide⟩

/-- C2 witness: the malformed payload `[0xFF]` at concrete topic and
sender, and the validity of the emitted replacement character. -/
theorem claim_C2_witness :
    messageCallback "news" "QmPeer" [0xFF] =
      [Effect.log ("\nReceived message on " ++ "news" ++ " from " ++
        "QmPeer" ++ ": " ++ uint8ArrayToString [0xFF])] ∧
    ValidScalar 0xFFFD :=
  ⟨(claim_C2.1 "news" "QmPeer" [0xFF]).1,
   (claim_C2.1 "news" "QmPeer" [0xFF]).2 0xFFFD (by decide)⟩

/-- C3 counterexample: the claim that the dispatch of the first
command always completes before the second line is read and dispatched
is false: readline `line` events are not gated on the previous async
listener settling, so the schedule that suspends handler 1 at its
`await` and then runs handler 2's first block reads and starts
dispatching line 2 before line 1's dispatch ends. -/
theorem claim_C3_counterexample :
    ¬ (∀ sched : List Bool,
        NotBefore (ConsoleAct.lineRead 2) (ConsoleAct.dispatchEnd 1)
          (interleaveBlocks sched (lineHandlerBlocks 1)
            (lineHandlerBlocks 2)) ∧
        NotBefore (ConsoleAct.dispatchStart 2) (ConsoleAct.dispatchEnd 1)
          (interleaveBlocks sched (lineHandlerBlocks 1)
            (lineHandlerBlocks 2))) := by
  intro h
  exact absurd (h [true, false]).1 (by decide)

/-- C3 (amended): within a single line's handling the re-prompt is
issued only after that line's dispatch settles (under every schedule
of the lone handler, the trace is read, dispatch start, dispatch end,
re-prompt in order), but consecutive line dispatches are not
serialized: there is an interleaving in which the second line's
dispatch starts before the first line's dispatch has ended. -/
theorem claim_C3 :
    (∀ sched : List Bool,
      interleaveBlocks sched (lineHandlerBlocks 1) [] =
        [ConsoleAct.lineRead 1, ConsoleAct.dispatchStart 1,
         ConsoleAct.dispatchEnd 1, ConsoleAct.reprompt 1]) ∧
    (∃ sched : List Bool,
      ¬ NotBefore (ConsoleAct.dispatchStart 2) (ConsoleAct.dispatchEnd 1)
        (interleaveBlocks sched (lineHandlerBlocks 1)
          (lineHandlerBlocks 2))) := by
  constructor
  · intro sched
    rw [interleaveBlocks_nil_right]
    rfl
  · exact ⟨[true, false], by decide⟩
